import Mathlib

/-!
Shallow embedding of the AccessiScan scan route
(`src/app/api/scan/route.js`): violation enrichment, remediation
prioritization, audit-report building, validation, AI-explanation
merging, error sanitization, and the admission controller.

JavaScript conventions captured here:
* `x || y` on strings treats `""` and `undefined` as falsy
  (`truthyStr` below); arrays are always truthy, so `a.nodes || []`
  only falls through when the field is absent (`Option.getD`).
* `Array.prototype.sort` is a stable sort of a comparator-induced
  total preorder (ECMAScript 2019); `enriched.slice().sort(cmp)` is
  therefore embedded as a stable sort (`List.insertionSort`) of the
  input list.
* Machine numbers appearing here are small integers, embedded as
  `Int`/`Nat`.
-/

/-- JS string truthiness: `undefined` and `""` are falsy. -/
def truthyStr (o : Option String) : Option String :=
  match o with
  | some s => if s = "" then none else some s
  | none => none

/-- Indexed map, used for the `.map((v, idx) => ...)` callbacks. -/
def mapIdxFrom (f : Nat → α → β) : Nat → List α → List β
  | _, [] => []
  | i, a :: as => f i a :: mapIdxFrom f (i + 1) as

/-- An axe-core style raw violation record: every field may be absent
(`route.js` tolerates arbitrary shapes). Page locations (`nodes`,
`targets`) are opaque, embedded as strings. -/
structure RawViolation where
  id : Option String := none
  ruleId : Option String := none
  description : Option String := none
  help : Option String := none
  message : Option String := none
  impact : Option String := none
  severity : Option String := none
  nodes : Option (List String) := none
  targets : Option (List String) := none
  tags : Option (List String) := none
deriving Repr, DecidableEq, Inhabited

/-- The enriched record produced by `enrichViolations`. The degraded
catch-path record `{id, raw}` carries only `id` and `raw`, hence the
optional fields. -/
structure EnrichedViolation where
  id : String
  description : Option String := none
  impact : Option String := none
  nodes : Option (List String) := none
  wcag : Option (List String) := none
  raw : RawViolation := {}
deriving Repr, DecidableEq, Inhabited

/-- ASCII case lowering for a character. The source strings this
program lowercases (severity names, tags, error signatures) are
ASCII, so `String.prototype.toLowerCase` is embedded as ASCII
lowering. -/
def lowerChar (c : Char) : Char :=
  match c with
  | 'A' => 'a' | 'B' => 'b' | 'C' => 'c' | 'D' => 'd' | 'E' => 'e' | 'F' => 'f'
  | 'G' => 'g' | 'H' => 'h' | 'I' => 'i' | 'J' => 'j' | 'K' => 'k' | 'L' => 'l'
  | 'M' => 'm' | 'N' => 'n' | 'O' => 'o' | 'P' => 'p' | 'Q' => 'q' | 'R' => 'r'
  | 'S' => 's' | 'T' => 't' | 'U' => 'u' | 'V' => 'v' | 'W' => 'w' | 'X' => 'x'
  | 'Y' => 'y' | 'Z' => 'z'
  | c => c

/-- `s.toLowerCase()` over the character list. -/
def toLowerStr (s : String) : String := ⟨s.data.map lowerChar⟩

def strStartsWith (s pre : String) : Bool := decide (pre.data <+: s.data)

/-- The tag filter `/^wcag|^WCAG/i.test(t) || /^wcag/.test(t)`:
a case-insensitive "starts with wcag" check. -/
def isWcagTag (t : String) : Bool := strStartsWith (toLowerStr t) "wcag"

/-- One iteration of the `violations.map((v, idx) => ...)` body of
`enrichViolations` (route.js:14-21). -/
def enrichOne (idx : Nat) (v : RawViolation) : EnrichedViolation :=
  { id := (truthyStr v.id).getD ((truthyStr v.ruleId).getD ("violation-" ++ toString idx))
  , description := some ((truthyStr v.description).getD
      ((truthyStr v.help).getD ((truthyStr v.message).getD "")))
  , impact := some ((truthyStr v.impact).getD ((truthyStr v.severity).getD "moderate"))
  , nodes := some ((v.nodes.orElse fun _ => v.targets).getD [])
  , wcag := some ((v.tags.getD []).filter isWcagTag)
  , raw := v }

/-- `enrichViolations` (route.js:12-26). The `try` body is total over
the record type, so the catch path never fires in the embedding. -/
def enrichViolations (violations : List RawViolation) : List EnrichedViolation :=
  mapIdxFrom enrichOne 0 violations

/-- The severity table of `prioritizeRemediations` (route.js:32) with
the JS lookup `weight[(impact || "").toLowerCase()] || 2` folded in:
case-insensitive, unknown or missing impact defaults to 2. -/
def severityWeightOf (s : String) : Nat :=
  match toLowerStr s with
  | "critical" => 5
  | "serious" => 4
  | "high" => 4
  | "moderate" => 3
  | "low" => 2
  | "minor" => 1
  | _ => 2

def impactWeight (v : EnrichedViolation) : Nat :=
  severityWeightOf (v.impact.getD "")

/-- `prioritizeRemediations` (route.js:31-38):
`enriched.slice().sort((a, b) => wb - wa)`, a stable sort by
non-increasing severity weight on a copy of the input. -/
def prioritizeRemediations (enriched : List EnrichedViolation) : List EnrichedViolation :=
  enriched.insertionSort (fun a b => impactWeight b ≤ impactWeight a)

/-- The scan-result bag handed to `generateAuditReport`
(route.js:206-217). Fields irrelevant to the report (passes,
incomplete, performance) are omitted. -/
structure ScanInput where
  url : Option String := none
  violations : Option (List EnrichedViolation) := none
  timestamp : Option String := none
  requestId : Option String := none
deriving Repr

structure Issue where
  id : String
  description : String
  impact : String
  wcag : List String
  nodes : List String
  remediation : Option String
  raw : RawViolation
deriving Repr, DecidableEq, Inhabited

structure AuditReport where
  url : Option String
  accessibilityScore : Int
  detailedIssues : List Issue
  summary : String
  scannedAt : Option String
  requestId : Option String
deriving Repr

/-- `Math.max(lo, Math.min(hi, x))`. -/
def clampInt (lo hi x : Int) : Int := max lo (min hi x)

/-- One iteration of the `detailedIssues` map (route.js:50-58). The
input items are enriched violations, which carry no `help` field, so
the `v.help` fallback is vacuous; `v.raw` is always present, so
`raw: v.raw || v` resolves to `v.raw`. -/
def detailedIssueOf (remediate : Option (EnrichedViolation → String))
    (idx : Nat) (v : EnrichedViolation) : Issue :=
  { id := if v.id = "" then "issue-" ++ toString idx else v.id
  , description := (truthyStr v.description).getD ((truthyStr v.raw.description).getD "")
  , impact := (truthyStr v.impact).getD "moderate"
  , wcag := v.wcag.getD []
  , nodes := v.nodes.getD []
  , remediation := remediate.map (fun f => f v)
  , raw := v.raw }

/-- `generateAuditReport` (route.js:43-74). The summarization and
remediation collaborators (`generateSummary`, `generateImprovementPlan`
from `lib/gemini`) are parameters; `none` embeds the
`typeof f === "function"` guard failing. The wall-clock fallback of
`meta.scannedAt` is not modelled (no claim depends on it). -/
def generateAuditReport (summarize : Option (Option String → List Issue → String))
    (remediate : Option (EnrichedViolation → String)) (input : ScanInput) : AuditReport :=
  let violations := input.violations.getD []
  let totalViolations := violations.length
  let accessibilityScore := clampInt 0 100 (100 - (totalViolations : Int) * 8)
  let detailedIssues := mapIdxFrom (detailedIssueOf remediate) 0 violations
  let summary :=
    match summarize with
    | some f => f input.url detailedIssues
    | none => "Found " ++ toString totalViolations ++ " accessibility issue(s)."
  { url := input.url, accessibilityScore := accessibilityScore
  , detailedIssues := detailedIssues, summary := summary
  , scannedAt := input.timestamp, requestId := input.requestId }

structure ValidationResult where
  overallQuality : String
  validationScore : Int
  issues : List (String × String)
  warnings : List String
deriving Repr

/-- `validateAuditResults` (route.js:79-93). In the typed embedding
`accessibilityScore` is always a number, so the "Missing score"
warning branch is vacuous. -/
def validateAuditResults (auditReport : AuditReport) : ValidationResult :=
  let issues := auditReport.detailedIssues
  let validationScore :=
    clampInt 0 100 (auditReport.accessibilityScore - ((issues.length / 2 : Nat) : Int))
  let overallQuality :=
    if 80 ≤ validationScore then "good" else if 50 ≤ validationScore then "fair" else "poor"
  { overallQuality := overallQuality, validationScore := validationScore
  , issues := issues.map (fun i => (i.id, i.impact)), warnings := [] }

structure SanityCheck where
  passed : Bool
  notes : List String
deriving Repr

/-- `performSanityCheck` (route.js:98-101); the `typeof`-number check
is vacuous in the typed embedding. -/
def performSanityCheck (auditReport : AuditReport) : SanityCheck :=
  let passed := decide (0 ≤ auditReport.accessibilityScore) &&
    decide (auditReport.accessibilityScore ≤ 100)
  { passed := passed
  , notes := if passed then [] else ["accessibilityScore missing or out of range"] }

/-- Phase 5 of `POST` (route.js:241-265): with an API key and a
nonempty prioritized list, the top 5 items each get an independent
`explainIssue` call (`none` embeds the per-item catch), the rest pass
through; with no key (or no items) the stage is an identity pass and
no item carries an `aiExplanation`. -/
def enhancedWithAIOf (hasKey : Bool) (explain : EnrichedViolation → Option String)
    (prioritized : List EnrichedViolation) : List (EnrichedViolation × Option String) :=
  if hasKey && decide (0 < prioritized.length) then
    ((prioritized.take 5).map fun v => (v, explain v)) ++
      ((prioritized.drop 5).map fun v => (v, none))
  else
    prioritized.map fun v => (v, none)

/-- Response assembly (route.js:288-291):
`aiExplanation: enhancedWithAI[idx]?.aiExplanation || undefined`,
a positional lookup into the enhanced (prioritized-order) list. -/
def mergeAIExplanations (detailedIssues : List Issue)
    (enhanced : List (EnrichedViolation × Option String)) : List (Issue × Option String) :=
  mapIdxFrom (fun idx issue => (issue, truthyStr (enhanced[idx]?.bind Prod.snd))) 0 detailedIssues

/-- Phases 2-3 of `POST` (route.js:199-219): the Report Builder is
given `enrichedViolations`, not the prioritized list. -/
def scanPipelineReport (summarize : Option (Option String → List Issue → String))
    (remediate : Option (EnrichedViolation → String)) (url : Option String)
    (vs : List RawViolation) : AuditReport :=
  let enriched := enrichViolations vs
  let _prioritized := prioritizeRemediations enriched
  generateAuditReport summarize remediate { url := url, violations := some enriched }

/-- Phases 2, 3 and 5 plus response assembly of `POST`: the
`detailedIssues` of the final response paired with their merged
`aiExplanation`. -/
def scanResponseIssues (hasKey : Bool) (explain : EnrichedViolation → Option String)
    (summarize : Option (Option String → List Issue → String))
    (remediate : Option (EnrichedViolation → String)) (url : Option String)
    (vs : List RawViolation) : List (Issue × Option String) :=
  let enriched := enrichViolations vs
  let prioritized := prioritizeRemediations enriched
  let auditReport := generateAuditReport summarize remediate { url := url, violations := some enriched }
  mergeAIExplanations auditReport.detailedIssues (enhancedWithAIOf hasKey explain prioritized)

/-- `String.prototype.includes`, case-sensitive substring test. -/
def stringIncludes (s sub : String) : Bool := decide (sub.data <:+: s.data)

/-- The catch-block message sanitizer of `POST` (route.js:336-346):
substring-match the error text against fixed failure signatures; an
empty message falls back to a generic default. -/
def sanitizeErrorMessage (raw : String) : String :=
  let errorMessage := if raw = "" then "Failed to complete accessibility audit" else raw
  if stringIncludes errorMessage "timeout" || stringIncludes errorMessage "timed out" then
    "The website took too long to load. Please try a different URL or a faster website."
  else if stringIncludes errorMessage "ERR_NAME_NOT_RESOLVED" ||
      stringIncludes errorMessage "ENOTFOUND" then
    "Could not find that website. Please check the URL and try again."
  else if stringIncludes errorMessage "ERR_CONNECTION_REFUSED" then
    "Connection refused. The website may be down or blocked."
  else if stringIncludes errorMessage "net::ERR" || stringIncludes errorMessage "ERR::" then
    "Network error. Please check the URL and your internet connection."
  else errorMessage

structure RateLimitResult where
  allowed : Bool
  retryAfter : Nat
deriving Repr, DecidableEq

/-- Minimum of a timestamp list, with a default for the empty case. -/
def oldestTimestamp (ts : List Nat) (dflt : Nat) : Nat :=
  match ts with
  | [] => dflt
  | t :: rest => rest.foldl Nat.min t

/-- Modelled from the spec: `checkRateLimit` lives in
`lib/rateLimiter.js`, which is not part of the provided sources; this
follows §4.1 of the specification. One admission check for a single
client at time `now` over that client's recorded timestamps: purge
timestamps older than the window (kept iff `now < t + window`, the
real-time `now - t < window`); if the remaining count is at or above
the limit, reject with `retryAfter` = time until the oldest in-window
timestamp expires; otherwise record `now` and admit. Returns the
result and the client's updated timestamp list. -/
def checkRateLimit (limit window now : Nat) (ts : List Nat) : RateLimitResult × List Nat :=
  let recent := ts.filter fun t => now < t + window
  if limit ≤ recent.length then
    ({ allowed := false, retryAfter := oldestTimestamp recent now + window - now }, recent)
  else
    ({ allowed := true, retryAfter := 0 }, recent ++ [now])

/-- Modelled from the spec: a sequence of admission checks for one
client at the given request times, threading the recorded-timestamp
state; returns the admission flags in request order and the final
state. -/
def processRequests (limit window : Nat) : List Nat → List Nat → List Bool × List Nat
  | ts, [] => ([], ts)
  | ts, t :: rest =>
    let step := checkRateLimit limit window t ts
    let next := processRequests limit window step.2 rest
    (step.1.allowed :: next.1, next.2)

/-- The severity vocabulary recognized by the prioritizer's weight
table — the only severity vocabulary in the program. -/
def recognizedSeverity (s : String) : Bool :=
  ["critical", "serious", "high", "moderate", "low", "minor"].contains (toLowerStr s)

lemma score_bounds (summarize : Option (Option String → List Issue → String))
    (remediate : Option (EnrichedViolation → String)) (s : ScanInput) :
    0 ≤ (generateAuditReport summarize remediate s).accessibilityScore ∧
      (generateAuditReport summarize remediate s).accessibilityScore ≤ 100 := by
  constructor <;> simp only [generateAuditReport, clampInt] <;> omega

lemma mapIdxFrom_length (f : Nat → α → β) : ∀ (i : Nat) (l : List α),
    (mapIdxFrom f i l).length = l.length
  | _, [] => rfl
  | i, a :: as => by simp [mapIdxFrom, mapIdxFrom_length f (i + 1) as]

lemma exists_of_mem_mapIdxFrom {f : Nat → α → β} {b : β} :
    ∀ {i : Nat} {l : List α}, b ∈ mapIdxFrom f i l → ∃ j a, a ∈ l ∧ b = f j a := by
  intro i l
  induction l generalizing i with
  | nil => intro h; cases h
  | cons a as ih =>
    intro h
    rcases List.mem_cons.mp h with h | h
    · exact ⟨i, a, List.mem_cons_self a as, h⟩
    · obtain ⟨j, a', ha', hb⟩ := ih h
      exact ⟨j, a', List.mem_cons_of_mem _ ha', hb⟩

lemma truthyStr_ne {o : Option String} {s : String} (h : truthyStr o = some s) : s ≠ "" := by
  unfold truthyStr at h
  cases o with
  | none => cases h
  | some t =>
    by_cases ht : t = ""
    · simp [ht] at h
    · simp [ht] at h
      exact h ▸ ht

lemma violation_fallback_ne (i : Nat) : ("violation-" ++ toString i) ≠ "" := by
  intro h
  have hl := congrArg String.length h
  rw [String.length_append] at hl
  have h10 : "violation-".length = 10 := rfl
  have h0 : ("" : String).length = 0 := rfl
  omega

lemma enrichOne_id_ne (i : Nat) (v : RawViolation) : (enrichOne i v).id ≠ "" := by
  unfold enrichOne
  dsimp only
  rcases h1 : truthyStr v.id with _ | s1
  · rcases h2 : truthyStr v.ruleId with _ | s2
    · simpa [h1, h2] using violation_fallback_ne i
    · simpa [h1, h2] using truthyStr_ne h2
  · simpa [h1] using truthyStr_ne h1

/-- C3: for every scan input the Report Builder's score is
`clamp(0, 100, 100 - 8*N)` with `N` the violation count, an integer in
`[0, 100]`; concretely `N = 3` gives `76` and `N = 0` gives `100`. -/
theorem accessibilityScore_formula :
    (∀ summarize remediate (s : ScanInput),
      (generateAuditReport summarize remediate s).accessibilityScore =
        clampInt 0 100 (100 - 8 * ((s.violations.getD []).length : Int)) ∧
      0 ≤ (generateAuditReport summarize remediate s).accessibilityScore ∧
      (generateAuditReport summarize remediate s).accessibilityScore ≤ 100) ∧
    (generateAuditReport none none
      { violations := some (enrichViolations [{}, {}, {}]) }).accessibilityScore = 76 ∧
    (generateAuditReport none none { violations := some [] }).accessibilityScore = 100 := by
  refine ⟨fun summarize remediate s => ?_, by decide, by decide⟩
  refine ⟨by simp [generateAuditReport, clampInt]; ring_nf, ?_, ?_⟩ <;>
    simp only [generateAuditReport, clampInt] <;> omega

/-- C2: for every audit report produced by the Report Builder,
`validateAuditResults` returns
`validationScore = clamp(0, 100, accessibilityScore - floor(issueCount/2))`,
an integer in `[0, 100]` with `validationScore ≤ accessibilityScore`,
where `issueCount` is the length of the report's `detailedIssues`. -/
theorem validationScore_formula (summarize : Option (Option String → List Issue → String))
    (remediate : Option (EnrichedViolation → String)) (s : ScanInput) :
    (validateAuditResults (generateAuditReport summarize remediate s)).validationScore =
      clampInt 0 100 ((generateAuditReport summarize remediate s).accessibilityScore -
        (((generateAuditReport summarize remediate s).detailedIssues.length / 2 : Nat) : Int)) ∧
    0 ≤ (validateAuditResults (generateAuditReport summarize remediate s)).validationScore ∧
    (validateAuditResults (generateAuditReport summarize remediate s)).validationScore ≤ 100 ∧
    (validateAuditResults (generateAuditReport summarize remediate s)).validationScore ≤
      (generateAuditReport summarize remediate s).accessibilityScore := by
  obtain ⟨h0, h1⟩ := score_bounds summarize remediate s
  have hv : (validateAuditResults (generateAuditReport summarize remediate s)).validationScore =
      clampInt 0 100 ((generateAuditReport summarize remediate s).accessibilityScore -
        (((generateAuditReport summarize remediate s).detailedIssues.length / 2 : Nat) : Int)) :=
    rfl
  refine ⟨hv, ?_, ?_, ?_⟩ <;>
  · rw [hv]
    simp only [clampInt]
    omega

/-- C7: with the summarization collaborator unavailable the built
report's summary is the deterministic template
`"Found {N} accessibility issue(s)."` with `N` the violation count;
in particular an empty violation list yields
`"Found 0 accessibility issue(s)."` and the builder is total. -/
theorem summary_fallback_template :
    (∀ remediate (s : ScanInput),
      (generateAuditReport none remediate s).summary =
        "Found " ++ toString (s.violations.getD []).length ++ " accessibility issue(s).") ∧
    (∀ remediate url ts rid,
      (generateAuditReport none remediate
        { url := url, violations := some [], timestamp := ts, requestId := rid }).summary =
        "Found 0 accessibility issue(s).") := by
  refine ⟨fun remediate s => rfl, fun remediate url ts rid => ?_⟩
  show ("Found " ++ toString (0 : Nat) ++ " accessibility issue(s).") =
    "Found 0 accessibility issue(s)."
  decide

/-- C4: enrichment is total — for every raw-violation list (records
with any fields missing, and the empty list) `enrichViolations`
returns a list of the same length in which every item's `id` is
non-empty (source `id`, `ruleId`, or the fallback
`violation-<index>`). -/
theorem enrichViolations_total_nonempty_id (vs : List RawViolation) :
    (enrichViolations vs).length = vs.length ∧
    ∀ e ∈ enrichViolations vs, e.id ≠ "" := by
  constructor
  · exact mapIdxFrom_length enrichOne 0 vs
  · intro e he
    obtain ⟨j, v, -, hb⟩ := exists_of_mem_mapIdxFrom he
    exact hb ▸ enrichOne_id_ne j v

theorem enrichViolations_total_nonempty_id_witness :
    (enrichViolations [({} : RawViolation)]).length = 1 ∧ (enrichOne 0 {}).id ≠ "" :=
  ⟨(enrichViolations_total_nonempty_id [{}]).1,
    (enrichViolations_total_nonempty_id [{}]).2 (enrichOne 0 {}) (by decide)⟩

/-- C9 fails on the code: `enrichViolations` performs no vocabulary
check — the unrecognized non-empty impact `"banana"` passes through
unchanged instead of being defaulted to `"moderate"`. -/
theorem impact_not_vocabulary_checked :
    recognizedSeverity "banana" = false ∧
    (enrichViolations [({ impact := some "banana" } : RawViolation)]).map
      EnrichedViolation.impact = [some "banana"] ∧
    some "banana" ≠ some "moderate" := by
  decide

/-- C9 amended: the enriched `impact` is the source `impact` when that
is a non-empty string (recognized or not), else the source `severity`
when non-empty, and `"moderate"` only when both are absent or empty —
no vocabulary check is performed. -/
theorem impact_fallback_chain (vs : List RawViolation) (e : EnrichedViolation)
    (he : e ∈ enrichViolations vs) :
    ((e.raw.impact = none ∨ e.raw.impact = some "") →
      (e.raw.severity = none ∨ e.raw.severity = some "") → e.impact = some "moderate") ∧
    (∀ s, e.raw.impact = some s → s ≠ "" → e.impact = some s) ∧
    ((e.raw.impact = none ∨ e.raw.impact = some "") →
      ∀ s, e.raw.severity = some s → s ≠ "" → e.impact = some s) := by
  obtain ⟨j, v, -, hb⟩ := exists_of_mem_mapIdxFrom he
  subst hb
  simp only [enrichOne]
  refine ⟨?_, ?_, ?_⟩
  · rintro (h1 | h1) (h2 | h2) <;> simp [truthyStr, h1, h2]
  · rintro s h1 h2
    simp [truthyStr, h1, h2]
  · rintro (h1 | h1) s h2 h3 <;> simp [truthyStr, h1, h2, h3]

theorem impact_fallback_chain_witness :
    (enrichOne 0 ({ severity := some "serious" } : RawViolation)).impact = some "serious" :=
  (impact_fallback_chain [{ severity := some "serious" }]
      (enrichOne 0 ({ severity := some "serious" } : RawViolation))
      (by decide)).2.2 (Or.inl rfl) "serious" rfl (by decide)

lemma enriched_id_ne {vs : List RawViolation} : ∀ e ∈ enrichViolations vs, e.id ≠ "" := by
  intro e he
  obtain ⟨j, v, -, hb⟩ := exists_of_mem_mapIdxFrom he
  exact hb ▸ enrichOne_id_ne j v

/-- C5: `prioritizeRemediations` is a stable sort by descending
severity weight: the output is a permutation of the input ordered by
non-increasing `impactWeight`, and for each weight the subsequence of
items of that weight is exactly the input's subsequence of that
weight — equal-weight items keep their relative input order. -/
theorem prioritizeRemediations_stable_sort (l : List EnrichedViolation) :
    (prioritizeRemediations l).Perm l ∧
    (prioritizeRemediations l).Pairwise (fun a b => impactWeight b ≤ impactWeight a) ∧
    ∀ k : Nat, (prioritizeRemediations l).filter (fun x => impactWeight x = k) =
      l.filter (fun x => impactWeight x = k) := by
  haveI : IsTotal EnrichedViolation (fun a b => impactWeight b ≤ impactWeight a) :=
    ⟨fun a b => Nat.le_total (impactWeight b) (impactWeight a)⟩
  haveI : IsTrans EnrichedViolation (fun a b => impactWeight b ≤ impactWeight a) :=
    ⟨fun _ _ _ hab hbc => Nat.le_trans hbc hab⟩
  refine ⟨List.perm_insertionSort _ l, List.sorted_insertionSort _ l, fun k => ?_⟩
  have hpair : (l.filter (fun x => impactWeight x = k)).Pairwise
      (fun a b => impactWeight b ≤ impactWeight a) := by
    apply List.pairwise_of_forall_mem_list
    intro a ha b hb
    have ha' := (List.mem_filter.mp ha).2
    have hb' := (List.mem_filter.mp hb).2
    simp only [decide_eq_true_eq] at ha' hb'
    omega
  have hsub := List.sublist_insertionSort hpair (List.filter_sublist l)
  have hidem : (l.filter (fun x => impactWeight x = k)).filter
      (fun x => impactWeight x = k) = l.filter (fun x => impactWeight x = k) :=
    List.filter_eq_self.mpr fun a ha => (List.mem_filter.mp ha).2
  have hsub2 := hsub.filter (fun x => decide (impactWeight x = k))
  rw [hidem] at hsub2
  have hlen : ((prioritizeRemediations l).filter (fun x => impactWeight x = k)).length =
      (l.filter (fun x => impactWeight x = k)).length :=
    ((List.perm_insertionSort _ l).filter _).length_eq
  exact (hsub2.eq_of_length hlen.symm).symm

lemma issues_map_id (remediate : Option (EnrichedViolation → String)) :
    ∀ (i : Nat) (l : List EnrichedViolation), (∀ e ∈ l, e.id ≠ "") →
    (mapIdxFrom (detailedIssueOf remediate) i l).map Issue.id = l.map EnrichedViolation.id := by
  intro i l
  induction l generalizing i with
  | nil => intro _; rfl
  | cons e es ih =>
    intro h
    have he := h e (List.mem_cons_self e es)
    simp [mapIdxFrom, detailedIssueOf, he,
      ih (i + 1) fun x hx => h x (List.mem_cons_of_mem _ hx)]

/-- C10: prioritization does not disturb the sequence the Report
Builder consumes. The source copies before sorting
(`enriched.slice().sort`), so in the embedding `prioritizeRemediations`
is a pure permutation of its input, and the pipeline (which computes
the prioritized list before building) hands the builder the enriched
list in enrichment order: the report's issue ids follow the enriched
ids positionally, not the prioritized order. -/
theorem prioritize_preserves_builder_input
    (summarize : Option (Option String → List Issue → String))
    (remediate : Option (EnrichedViolation → String)) (url : Option String)
    (vs : List RawViolation) :
    (prioritizeRemediations (enrichViolations vs)).Perm (enrichViolations vs) ∧
    (scanPipelineReport summarize remediate url vs).detailedIssues.map Issue.id =
      (enrichViolations vs).map EnrichedViolation.id := by
  refine ⟨List.perm_insertionSort _ _, ?_⟩
  have hIss : (scanPipelineReport summarize remediate url vs).detailedIssues =
      mapIdxFrom (detailedIssueOf remediate) 0 (enrichViolations vs) := rfl
  rw [hIss]
  exact issues_map_id remediate 0 (enrichViolations vs) enriched_id_ne

/-- A violation with low-priority impact, listed first. -/
def rawMinorA : RawViolation := { id := some "a", impact := some "minor" }

/-- A violation with top-priority impact, listed second. -/
def rawCriticalB : RawViolation := { id := some "b", impact := some "critical" }

/-- A deterministic explanation collaborator: tags each violation's
explanation with the violation's own id. -/
def demoExplain (v : EnrichedViolation) : Option String := some ("exp-" ++ v.id)

/-- C1 fails on the code: the response assembly attaches
`enhancedWithAI[idx].aiExplanation` to `detailedIssues[idx]`, a
positional merge of the prioritized-order list onto the
enrichment-order list. With violations [minor "a", critical "b"] the
prioritized order is [b, a], so the response issue with id "a"
carries the explanation generated for "b" ("exp-b"), not the one
generated for the issue with id "a" ("exp-a"). -/
theorem aiExplanation_misattributed_on_reorder :
    (scanResponseIssues true demoExplain none none none [rawMinorA, rawCriticalB]).map
      (fun p => (p.1.id, p.2)) = [("a", some "exp-b"), ("b", some "exp-a")] ∧
    demoExplain (enrichOne 0 rawMinorA) = some "exp-a" ∧
    (enrichOne 0 rawMinorA).id = "a" ∧
    some "exp-b" ≠ some "exp-a" := by
  decide

lemma getElem?_mapIdxFrom (f : Nat → α → β) :
    ∀ (k : Nat) (l : List α) (i : Nat), (mapIdxFrom f k l)[i]? = (l[i]?).map (f (k + i)) := by
  intro k l
  induction l generalizing k with
  | nil => intro i; simp [mapIdxFrom]
  | cons a as ih =>
    intro i
    cases i with
    | zero => simp [mapIdxFrom]
    | succ n =>
      have := ih (k + 1) n
      simp only [mapIdxFrom, List.getElem?_cons_succ, this]
      have harith : k + 1 + n = k + (n + 1) := by omega
      rw [harith]

lemma getElem?_annotated (explain : α → Option String) (l : List α) (i : Nat)
    (hi : i < l.length) :
    ((l.take 5).map (fun v => (v, explain v)) ++
      (l.drop 5).map (fun v : α => (v, (none : Option String))))[i]? =
    (l[i]?).map (fun v => (v, if i < 5 then explain v else none)) := by
  by_cases h5 : i < 5
  · rw [List.getElem?_append_left (by simp [List.length_take]; omega)]
    rw [List.getElem?_map, List.getElem?_take_of_lt h5]
    simp [h5]
  · rw [List.getElem?_append_right (by simp [List.length_take]; omega)]
    have hlt : (List.take 5 l).length = 5 := by simp [List.length_take]; omega
    rw [List.length_map, hlt, List.getElem?_map, List.getElem?_drop]
    have harith : 5 + (i - 5) = i := by omega
    rw [harith]
    simp [h5]

/-- C1 amended: the merge of AI text onto the response's
`detailedIssues` is positional against the prioritized list, not an
id-keyed join: with the API key present, `detailedIssues[i]` (which is
the builder's issue at enrichment-order position `i`) carries the
explanation generated for `prioritized[i]` when `i < 5`, and none
beyond; the attached text matches the issue's own id only when
prioritization leaves position `i` unchanged. -/
theorem aiExplanation_merge_is_positional
    (explain : EnrichedViolation → Option String)
    (summarize : Option (Option String → List Issue → String))
    (remediate : Option (EnrichedViolation → String)) (url : Option String)
    (vs : List RawViolation) (i : Nat) (hi : i < vs.length) :
    ((scanResponseIssues true explain summarize remediate url vs)[i]?).map Prod.snd =
      some (if i < 5 then
        truthyStr (((prioritizeRemediations (enrichViolations vs))[i]?).bind explain)
      else none) ∧
    ((scanResponseIssues true explain summarize remediate url vs)[i]?).map Prod.fst =
      (generateAuditReport summarize remediate
        { url := url, violations := some (enrichViolations vs) }).detailedIssues[i]? := by
  have hlenE : (enrichViolations vs).length = vs.length := mapIdxFrom_length enrichOne 0 vs
  have hlenP : (prioritizeRemediations (enrichViolations vs)).length =
      (enrichViolations vs).length := (List.perm_insertionSort _ _).length_eq
  have hpos : 0 < (prioritizeRemediations (enrichViolations vs)).length := by omega
  have hIss : (generateAuditReport summarize remediate
      { url := url, violations := some (enrichViolations vs) }).detailedIssues =
      mapIdxFrom (detailedIssueOf remediate) 0 (enrichViolations vs) := rfl
  have hresp : scanResponseIssues true explain summarize remediate url vs =
      mapIdxFrom (fun idx issue => (issue,
        truthyStr ((enhancedWithAIOf true explain
          (prioritizeRemediations (enrichViolations vs)))[idx]?.bind Prod.snd))) 0
        (mapIdxFrom (detailedIssueOf remediate) 0 (enrichViolations vs)) := rfl
  have henh : enhancedWithAIOf true explain (prioritizeRemediations (enrichViolations vs)) =
      ((prioritizeRemediations (enrichViolations vs)).take 5).map (fun v => (v, explain v)) ++
      ((prioritizeRemediations (enrichViolations vs)).drop 5).map (fun v => (v, none)) := by
    unfold enhancedWithAIOf
    rw [if_pos]
    simp [hpos]
  have hannot := getElem?_annotated explain (prioritizeRemediations (enrichViolations vs)) i
    (by omega)
  obtain ⟨p, hP⟩ : ∃ p, (prioritizeRemediations (enrichViolations vs))[i]? = some p :=
    ⟨_, List.getElem?_eq_getElem (by omega)⟩
  obtain ⟨e, hE⟩ : ∃ e, (enrichViolations vs)[i]? = some e :=
    ⟨_, List.getElem?_eq_getElem (by omega)⟩
  have hI : (mapIdxFrom (detailedIssueOf remediate) 0 (enrichViolations vs))[i]? =
      some (detailedIssueOf remediate i e) := by
    rw [getElem?_mapIdxFrom, hE]
    simp
  constructor
  · rw [hresp, getElem?_mapIdxFrom, hI, henh]
    simp only [Nat.zero_add]
    rw [hannot, hP]
    by_cases h5 : i < 5 <;> simp [h5, truthyStr]
  · rw [hresp, getElem?_mapIdxFrom, hI, hIss, hI]
    simp

theorem aiExplanation_merge_is_positional_witness :
    ((scanResponseIssues true demoExplain none none none [rawMinorA, rawCriticalB])[0]?).map
      Prod.snd =
      some (if 0 < 5 then
        truthyStr (((prioritizeRemediations
          (enrichViolations [rawMinorA, rawCriticalB]))[0]?).bind demoExplain)
      else none) ∧
    ((scanResponseIssues true demoExplain none none none [rawMinorA, rawCriticalB])[0]?).map
      Prod.fst =
      (generateAuditReport none none
        { url := none,
          violations := some (enrichViolations [rawMinorA, rawCriticalB]) }).detailedIssues[0]? :=
  aiExplanation_merge_is_positional demoExplain none none none [rawMinorA, rawCriticalB] 0
    (by decide)

lemma processRequests_cons (limit W : Nat) (ts : List Nat) (t : Nat) (rest : List Nat) :
    processRequests limit W ts (t :: rest) =
      ((checkRateLimit limit W t ts).1.allowed ::
        (processRequests limit W (checkRateLimit limit W t ts).2 rest).1,
       (processRequests limit W (checkRateLimit limit W t ts).2 rest).2) := rfl

lemma checkRateLimit_admit {limit W now : Nat} {ts : List Nat}
    (hfil : ts.filter (fun t => now < t + W) = ts) (hlt : ts.length < limit) :
    checkRateLimit limit W now ts = ({ allowed := true, retryAfter := 0 }, ts ++ [now]) := by
  unfold checkRateLimit
  rw [hfil, if_neg (by omega)]

lemma foldl_min_of_le : ∀ (l : List Nat) (a : Nat), (∀ t ∈ l, a ≤ t) → l.foldl Nat.min a = a := by
  intro l
  induction l with
  | nil => intro a _; rfl
  | cons b bs ih =>
    intro a h
    have hab : Nat.min a b = a := Nat.min_eq_left (h b (List.mem_cons_self b bs))
    simp only [List.foldl_cons, hab]
    exact ih a fun t ht => h t (List.mem_cons_of_mem _ ht)

lemma processRequests_admits_all (limit W : Nat) :
    ∀ (times state : List Nat),
      (∀ u ∈ state ++ times, ∀ t ∈ times, t < u + W) →
      state.length + times.length ≤ limit →
      processRequests limit W state times = (List.replicate times.length true, state ++ times) := by
  intro times
  induction times with
  | nil => intro state _ _; simp [processRequests]
  | cons t rest ih =>
    intro state hspan hlen
    have hfil : state.filter (fun u => t < u + W) = state := by
      apply List.filter_eq_self.mpr
      intro a ha
      simpa using hspan a (by simp [ha]) t (by simp)
    have hlt : state.length < limit := by
      simp only [List.length_cons] at hlen
      omega
    have hstep := checkRateLimit_admit hfil hlt
    have ihapp := ih (state ++ [t])
      (by
        intro u hu t' ht'
        apply hspan u _ t' (List.mem_cons_of_mem _ ht')
        simp only [List.append_assoc, List.singleton_append] at hu
        exact hu)
      (by simp at hlen ⊢; omega)
    rw [processRequests_cons, hstep]
    simp only [ihapp]
    simp [List.replicate_succ, List.append_assoc]

/-- C6 (admission controller, modelled from the spec): with limit `N`
set to the number of already-admitted requests and window `W`, a
client whose `N` requests all lie within `W` of the first (at `t0`) has
them all admitted; the `(N+1)`-th request at `tlast`, still within `W`
of the first, is rejected with `retryAfter = t0 + W - tlast` — the
time until the oldest in-window timestamp expires — which is positive;
and the first request made at or after `t0 + W` (the window fully
elapsed) is admitted. -/
theorem checkRateLimit_window_behavior (t0 W : Nat) (rest : List Nat) (tlast : Nat)
    (hmem : ∀ t ∈ rest, t0 ≤ t ∧ t ≤ tlast) (h0 : t0 ≤ tlast) (hW : tlast < t0 + W) :
    processRequests (t0 :: rest).length W [] (t0 :: rest) =
      (List.replicate (t0 :: rest).length true, t0 :: rest) ∧
    (checkRateLimit (t0 :: rest).length W tlast (t0 :: rest)).1 =
      { allowed := false, retryAfter := t0 + W - tlast } ∧
    0 < t0 + W - tlast ∧
    ∀ t', t0 + W ≤ t' →
      (checkRateLimit (t0 :: rest).length W t'
        ((checkRateLimit (t0 :: rest).length W tlast (t0 :: rest)).2)).1.allowed = true := by
  have hub : ∀ u ∈ t0 :: rest, t0 ≤ u ∧ u ≤ tlast := by
    intro u hu
    rcases List.mem_cons.mp hu with h | h
    · exact ⟨le_of_eq h.symm, h ▸ h0⟩
    · exact hmem u h
  have hfil : (t0 :: rest).filter (fun u => tlast < u + W) = t0 :: rest := by
    apply List.filter_eq_self.mpr
    intro a ha
    have := (hub a ha).1
    simp only [decide_eq_true_eq]
    omega
  have hrej : checkRateLimit (t0 :: rest).length W tlast (t0 :: rest) =
      ({ allowed := false, retryAfter := t0 + W - tlast }, t0 :: rest) := by
    unfold checkRateLimit
    rw [hfil, if_pos (le_refl _)]
    have hmin : oldestTimestamp (t0 :: rest) tlast = t0 := by
      unfold oldestTimestamp
      exact foldl_min_of_le rest t0 fun t ht => (hmem t ht).1
    rw [hmin]
  refine ⟨?_, by rw [hrej], by omega, ?_⟩
  · apply processRequests_admits_all
    · intro u hu t ht
      rcases List.mem_append.mp hu with h | h
      · cases h
      · have h1 := (hub u h).1
        have h2 := (hub t ht).2
        omega
    · simp
  · intro t' ht'
    rw [hrej]
    unfold checkRateLimit
    have hdrop : (t0 :: rest).filter (fun u => t' < u + W) = rest.filter (fun u => t' < u + W) := by
      rw [List.filter_cons_of_neg]
      simp only [decide_eq_true_eq]
      omega
    rw [hdrop, if_neg]
    have := List.length_filter_le (fun u => decide (t' < u + W)) rest
    simp only [List.length_cons]
    omega

theorem checkRateLimit_window_behavior_witness :
    processRequests 3 60 [] [0, 10, 20] = (List.replicate 3 true, [0, 10, 20]) ∧
    (checkRateLimit 3 60 30 [0, 10, 20]).1 = { allowed := false, retryAfter := 30 } ∧
    0 < (30 : Nat) ∧
    (checkRateLimit 3 60 60 ((checkRateLimit 3 60 30 [0, 10, 20]).2)).1.allowed = true := by
  obtain ⟨h1, h2, h3, h4⟩ :=
    checkRateLimit_window_behavior 0 60 [10, 20] 30 (by decide) (by decide) (by decide)
  exact ⟨h1, h2, h3, h4 60 (by decide)⟩

/-- C8: the claim (and the repository's own documentation, which
promises "no internal details leaked") is contradicted by the code:
an error message matching none of the fixed failure signatures is
returned verbatim in the 500 body, so the response can carry the raw
internal error string. (A matched signature is sanitized, as the
second conjunct shows.) -/
theorem sanitizeErrorMessage_passes_through_unmatched :
    sanitizeErrorMessage "Cannot read properties of undefined (reading internalSecret)" =
      "Cannot read properties of undefined (reading internalSecret)" ∧
    sanitizeErrorMessage "Navigation timeout of 30000 ms exceeded" =
      "The website took too long to load. Please try a different URL or a faster website." := by
  decide
